import Mathlib

/-!
Shallow embedding of the allowed-fsgroups policy: the settings model
(`settings.rs`) and the decision engine (`lib.rs`), together with proofs of
the specified properties.

Modelling conventions:
* Rust `i64` values are modelled as `Int` (no arithmetic is performed on
  them, only comparisons, so no overflow concern arises).
* The pod structures from `k8s_openapi` are modelled with the one field the
  policy reads and writes (`fs_group`, `security_context`, `spec`) made
  explicit; every remaining field of each struct is abstracted as an
  association list `otherFields`, whose default value (the `Default`
  instance of the Rust struct) is the empty list.
* `serde_json::to_value` on a pod is modelled as the identity injection: the
  `Mutate` response carries the pod itself.
* `do_validate` returns a `ValidateResult`: `ok` for `Ok(...)`, `err` for a
  returned `anyhow` error, and `panicked` for the Rust panic raised by
  `ranges.ranges.first().unwrap()` when the range list is empty (a panic is
  an abort, not a returned error, so it is kept distinct from `err`).
-/

set_option autoImplicit false

namespace AllowedFsGroups

/-- A closed integer interval of the policy configuration
(`settings.rs`, `struct Range { min: i64, max: i64 }`). -/
structure Range where
  min : Int
  max : Int
deriving DecidableEq, Repr

/-- `Range::check` (`settings.rs`): fails when `min > max`. -/
def Range.check (r : Range) : Except String Unit :=
  if r.min > r.max then Except.error "min on range cannot be greater than max"
  else Except.ok ()

/-- The ordered sequence of configured ranges
(`settings.rs`, `struct Ranges { ranges: Vec<Range> }`). -/
structure Ranges where
  ranges : List Range
deriving DecidableEq, Repr

/-- The three policy rules (`settings.rs`, `enum Rule`). -/
inductive Rule where
  | MustRunAs (ranges : Ranges)
  | MayRunAs (ranges : Ranges)
  | RunAsAny
deriving DecidableEq, Repr

/-- The `Display` implementation for `Rule` (`settings.rs`). -/
def Rule.display : Rule → String
  | .MustRunAs _ => "MustRunAs"
  | .MayRunAs _ => "MayRunAs"
  | .RunAsAny => "RunAsAny"

/-- The policy settings (`settings.rs`, `struct Settings { rule: Rule }`). -/
structure Settings where
  rule : Rule
deriving DecidableEq, Repr

/-- `Validatable::validate` for `Settings` (`settings.rs`, lines 59-74). -/
def Settings.validate (s : Settings) : Except String Unit :=
  match s.rule with
  | .MustRunAs ranges | .MayRunAs ranges =>
    if ranges.ranges.isEmpty then
      Except.error (s.rule.display ++ " must contain at least one range")
    else if !(ranges.ranges.all fun range =>
        match range.check with | .ok _ => true | .error _ => false) then
      Except.error "all ranges must be valid"
    else
      Except.ok ()
  | .RunAsAny => Except.ok ()

/-- The pod-level security context (`k8s_openapi` `PodSecurityContext`):
the `fs_group` field the policy inspects and sets, with every other field of
the Rust struct abstracted into `otherFields`. -/
structure PodSecurityContext where
  fs_group : Option Int
  otherFields : List (String × String)
deriving DecidableEq, Repr

/-- `PodSecurityContext::default()`: `fs_group` unset, every other field at
its default value. -/
def PodSecurityContext.default : PodSecurityContext :=
  { fs_group := none, otherFields := [] }

/-- The pod spec (`k8s_openapi` `PodSpec`): the optional security context,
with every other field abstracted into `otherFields`. -/
structure PodSpec where
  security_context : Option PodSecurityContext
  otherFields : List (String × String)
deriving DecidableEq, Repr

/-- The pod (`k8s_openapi` `Pod`): the optional spec, with every other
field abstracted into `otherFields`. -/
structure Pod where
  spec : Option PodSpec
  otherFields : List (String × String)
deriving DecidableEq, Repr

/-- The optional fsGroup value of a pod, reading through the optional spec
and security context. -/
def Pod.fsGroup (p : Pod) : Option Int :=
  p.spec.bind fun s => s.security_context.bind fun sc => sc.fs_group

/-- The engine's outcome (`lib.rs`, `enum PolicyResponse`); `Mutate` carries
the serialized mutated pod, modelled as the pod itself. -/
inductive PolicyResponse where
  | Accept
  | Reject (message : String)
  | Mutate (mutated_object : Pod)
deriving DecidableEq, Repr

/-- The result of `do_validate`: a returned `Ok` response, a returned
`anyhow` error, or a Rust panic (`first().unwrap()` on an empty range list
in the `MustRunAs` branch). -/
inductive ValidateResult where
  | ok (response : PolicyResponse)
  | err (message : String)
  | panicked
deriving DecidableEq, Repr

/-- Whether a `ValidateResult` is a returned error. -/
def ValidateResult.isErr : ValidateResult → Bool
  | .err _ => true
  | _ => false

/-- `validate_fs_group` (`lib.rs`, lines 93-103): accept when some
configured range contains the value, reject with a message naming the value
otherwise. -/
def validate_fs_group (fs_group : Int) (ranges : Ranges) : PolicyResponse :=
  if ranges.ranges.any fun range =>
      decide (fs_group ≥ range.min) && decide (fs_group ≤ range.max) then
    PolicyResponse.Accept
  else
    PolicyResponse.Reject
      ("fsGroup " ++ toString fs_group ++ " is not included in any range")

/-- `do_validate` (`lib.rs`, lines 47-91). In the `MustRunAs` branch the
Rust code eagerly builds the defaulted pod, unwrapping the first range, so
an empty range list panics there before the security context is examined;
this is modelled by the `head?` match returning `panicked`. -/
def do_validate (pod : Pod) (settings : Settings) : ValidateResult :=
  match pod.spec with
  | none => .err "invalid pod spec"
  | some pod_spec =>
    match settings.rule with
    | .MustRunAs ranges =>
      match ranges.ranges.head? with
      | none => .panicked
      | some firstRange =>
        let pod_with_defaulted_fs_group : Pod :=
          { pod with
            spec := some
              { pod_spec with
                security_context := some
                  { PodSecurityContext.default with
                    fs_group := some firstRange.min } } }
        match pod_spec.security_context with
        | some security_context =>
          match security_context.fs_group with
          | some fs_group => .ok (validate_fs_group fs_group ranges)
          | none => .ok (.Mutate pod_with_defaulted_fs_group)
        | none => .ok (.Mutate pod_with_defaulted_fs_group)
    | .MayRunAs ranges =>
      match pod_spec.security_context with
      | some security_context =>
        match security_context.fs_group with
        | some fs_group => .ok (validate_fs_group fs_group ranges)
        | none => .ok .Accept
      | none => .ok .Accept
    | .RunAsAny => .ok .Accept

-- scratch sanity checks (mirroring the repository's unit tests)
example :
    do_validate ⟨some ⟨none, []⟩, []⟩ ⟨.RunAsAny⟩ = .ok .Accept := by decide

example :
    do_validate ⟨some ⟨some ⟨some 100, []⟩, []⟩, []⟩ ⟨.MayRunAs ⟨[⟨1000, 2000⟩]⟩⟩ =
    .ok (.Reject "fsGroup 100 is not included in any range") := by decide

example :
    do_validate ⟨some ⟨none, []⟩, []⟩ ⟨.MustRunAs ⟨[⟨3000, 4000⟩, ⟨1000, 2000⟩]⟩⟩ =
    .ok (.Mutate ⟨some ⟨some ⟨some 3000, []⟩, []⟩, []⟩) := by decide

example :
    Settings.validate ⟨.MayRunAs ⟨[]⟩⟩ =
      .error "MayRunAs must contain at least one range" := by rfl

example :
    Settings.validate ⟨.MustRunAs ⟨[⟨1000, 500⟩]⟩⟩ =
      .error "all ranges must be valid" := by rfl

example :
    Settings.validate ⟨.MustRunAs ⟨[⟨1000, 1000⟩]⟩⟩ = .ok () := by rfl

/-! ### Helper lemmas -/

theorem validate_fs_group_eq_accept_iff (v : Int) (ranges : Ranges) :
    validate_fs_group v ranges = PolicyResponse.Accept ↔
      ∃ r ∈ ranges.ranges, r.min ≤ v ∧ v ≤ r.max := by
  by_cases h : (ranges.ranges.any fun range =>
      decide (v ≥ range.min) && decide (v ≤ range.max)) = true
  · unfold validate_fs_group
    rw [if_pos h]
    simp only [List.any_eq_true, Bool.and_eq_true, decide_eq_true_eq, ge_iff_le] at h
    exact iff_of_true rfl h
  · unfold validate_fs_group
    rw [if_neg h]
    simp only [List.any_eq_true, Bool.and_eq_true, decide_eq_true_eq, ge_iff_le] at h
    exact iff_of_false (by simp) h

theorem validate_fs_group_eq_reject (v : Int) (ranges : Ranges)
    (h : ¬ ∃ r ∈ ranges.ranges, r.min ≤ v ∧ v ≤ r.max) :
    validate_fs_group v ranges =
      PolicyResponse.Reject
        ("fsGroup " ++ toString v ++ " is not included in any range") := by
  unfold validate_fs_group
  rw [if_neg]
  simpa only [List.any_eq_true, Bool.and_eq_true, decide_eq_true_eq, ge_iff_le] using h

theorem validate_fs_group_ne_mutate (v : Int) (ranges : Ranges) (p : Pod) :
    validate_fs_group v ranges ≠ PolicyResponse.Mutate p := by
  unfold validate_fs_group
  split <;> simp

theorem range_check_bool_eq (r : Range) :
    (match r.check with | Except.ok _ => true | Except.error _ => false) =
      decide (r.min ≤ r.max) := by
  unfold Range.check
  by_cases h : r.min > r.max
  · rw [if_pos h]
    simp [not_le.mpr h]
  · rw [if_neg h]
    simp [not_lt.mp h]

theorem settings_validate_must_run_as_ok (ranges : Ranges)
    (h : Settings.validate ⟨Rule.MustRunAs ranges⟩ = Except.ok ()) :
    ranges.ranges ≠ [] ∧ ∀ r ∈ ranges.ranges, r.min ≤ r.max := by
  unfold Settings.validate at h
  simp only [range_check_bool_eq] at h
  split at h
  · exact absurd h (by simp)
  · split at h
    · exact absurd h (by simp)
    · next hempty hall =>
      refine ⟨fun hnil => hempty (by simp [hnil]), fun r hr => ?_⟩
      have hall' : (ranges.ranges.all fun range => decide (range.min ≤ range.max)) = true := by
        cases hb : ranges.ranges.all fun range => decide (range.min ≤ range.max)
        · simp [hb] at hall
        · rfl
      simpa using List.all_eq_true.mp hall' r hr

theorem list_isEmpty_iff (l : List Range) : l.isEmpty = true ↔ l = [] := by
  cases l <;> simp

/-- Any `Mutate` result of `do_validate` comes from the `MustRunAs` branch
with an absent fsGroup, and carries the input pod with its spec's security
context replaced by the default context holding the first range's min. -/
theorem do_validate_mutate_shape (pod : Pod) (settings : Settings) (m : Pod)
    (h : do_validate pod settings = .ok (.Mutate m)) :
    ∃ ranges firstRange rest podSpec,
      settings.rule = Rule.MustRunAs ranges ∧
      ranges.ranges = firstRange :: rest ∧
      pod.spec = some podSpec ∧
      (podSpec.security_context.bind fun sc => sc.fs_group) = none ∧
      m = { pod with
        spec := some
          { podSpec with
            security_context := some
              { PodSecurityContext.default with
                fs_group := some firstRange.min } } } := by
  obtain ⟨spec?, podOther⟩ := pod
  obtain ⟨rule⟩ := settings
  cases spec? with
  | none => exact ValidateResult.noConfusion h
  | some podSpec =>
    obtain ⟨sc?, specOther⟩ := podSpec
    cases rule with
    | RunAsAny =>
      exact PolicyResponse.noConfusion (ValidateResult.ok.inj h)
    | MayRunAs ranges =>
      cases sc? with
      | none => exact PolicyResponse.noConfusion (ValidateResult.ok.inj h)
      | some sc =>
        obtain ⟨fs?, scOther⟩ := sc
        cases fs? with
        | none => exact PolicyResponse.noConfusion (ValidateResult.ok.inj h)
        | some v =>
          exact absurd (ValidateResult.ok.inj h) (validate_fs_group_ne_mutate v ranges m)
    | MustRunAs ranges =>
      obtain ⟨rlist⟩ := ranges
      cases rlist with
      | nil => exact ValidateResult.noConfusion h
      | cons firstRange rest =>
        cases sc? with
        | none =>
          obtain rfl := (PolicyResponse.Mutate.inj (ValidateResult.ok.inj h)).symm
          exact ⟨⟨firstRange :: rest⟩, firstRange, rest, ⟨none, specOther⟩,
            rfl, rfl, rfl, rfl, rfl⟩
        | some sc =>
          obtain ⟨fs?, scOther⟩ := sc
          cases fs? with
          | none =>
            obtain rfl := (PolicyResponse.Mutate.inj (ValidateResult.ok.inj h)).symm
            exact ⟨⟨firstRange :: rest⟩, firstRange, rest, ⟨some ⟨none, scOther⟩, specOther⟩,
              rfl, rfl, rfl, rfl, rfl⟩
          | some v =>
            exact absurd (ValidateResult.ok.inj h)
              (validate_fs_group_ne_mutate v ⟨firstRange :: rest⟩ m)

theorem settings_validate_must_run_as_eq (ranges : Ranges) :
    Settings.validate ⟨Rule.MustRunAs ranges⟩ =
      (if ranges.ranges.isEmpty then
        Except.error "MustRunAs must contain at least one range"
      else if !(ranges.ranges.all fun range => decide (range.min ≤ range.max)) then
        Except.error "all ranges must be valid"
      else Except.ok ()) := by
  unfold Settings.validate
  simp only [range_check_bool_eq]
  rfl

theorem settings_validate_may_run_as_eq (ranges : Ranges) :
    Settings.validate ⟨Rule.MayRunAs ranges⟩ =
      (if ranges.ranges.isEmpty then
        Except.error "MayRunAs must contain at least one range"
      else if !(ranges.ranges.all fun range => decide (range.min ≤ range.max)) then
        Except.error "all ranges must be valid"
      else Except.ok ()) := by
  unfold Settings.validate
  simp only [range_check_bool_eq]
  rfl

/-! ### Claim theorems -/

/-- C1: under `MustRunAs` with a non-empty range list, every pod that has a
spec but no fsGroup value (security context absent, or present with the
field unset) is mutated, and the mutated pod's fsGroup is the min of the
first range in configuration order. -/
theorem must_run_as_absent_fs_group_mutates_to_first_min
    (pod : Pod) (podSpec : PodSpec) (ranges : Ranges) (firstRange : Range)
    (hspec : pod.spec = some podSpec)
    (hfirst : ranges.ranges.head? = some firstRange)
    (habsent : (podSpec.security_context.bind fun sc => sc.fs_group) = none) :
    ∃ mutated : Pod,
      do_validate pod ⟨Rule.MustRunAs ranges⟩ = .ok (.Mutate mutated) ∧
      mutated.fsGroup = some firstRange.min := by
  obtain ⟨spec?, podOther⟩ := pod
  obtain ⟨rlist⟩ := ranges
  cases rlist with
  | nil => cases hfirst
  | cons f rest =>
    obtain rfl := Option.some.inj hfirst
    cases spec? with
    | none => cases hspec
    | some ps =>
      obtain rfl := Option.some.inj hspec
      obtain ⟨sc?, specOther⟩ := ps
      cases sc? with
      | none => exact ⟨_, rfl, rfl⟩
      | some sc =>
        obtain ⟨fs?, scOther⟩ := sc
        cases fs? with
        | some v => cases habsent
        | none => exact ⟨_, rfl, rfl⟩

/-- Witness for C1: `MustRunAs [{3000,4000},{1000,2000}]` on a pod with no
security context mutates the fsGroup to 3000, the first range's min. -/
theorem must_run_as_absent_fs_group_mutates_to_first_min_witness :
    ∃ mutated : Pod,
      do_validate ⟨some ⟨none, []⟩, []⟩
          ⟨Rule.MustRunAs ⟨[⟨3000, 4000⟩, ⟨1000, 2000⟩]⟩⟩ = .ok (.Mutate mutated) ∧
      mutated.fsGroup = some 3000 :=
  must_run_as_absent_fs_group_mutates_to_first_min
    ⟨some ⟨none, []⟩, []⟩ ⟨none, []⟩ ⟨[⟨3000, 4000⟩, ⟨1000, 2000⟩]⟩ ⟨3000, 4000⟩ rfl rfl rfl

/-- C2: `validate_fs_group` accepts exactly when some configured range
contains the value (both bounds inclusive, independent of range order), and
otherwise rejects with a message naming the rejected value. -/
theorem validate_fs_group_accept_iff_in_some_range (v : Int) (ranges : Ranges) :
    (validate_fs_group v ranges = PolicyResponse.Accept ↔
      ∃ r ∈ ranges.ranges, r.min ≤ v ∧ v ≤ r.max) ∧
    (validate_fs_group v ranges = PolicyResponse.Accept ∨
      validate_fs_group v ranges = PolicyResponse.Reject
        ("fsGroup " ++ toString v ++ " is not included in any range")) := by
  refine ⟨validate_fs_group_eq_accept_iff v ranges, ?_⟩
  by_cases h : ∃ r ∈ ranges.ranges, r.min ≤ v ∧ v ≤ r.max
  · exact Or.inl ((validate_fs_group_eq_accept_iff v ranges).mpr h)
  · exact Or.inr (validate_fs_group_eq_reject v ranges h)

/-- Witness for C2: value 100 against the single range `[1000,2000]` is
rejected with the message naming 100. -/
theorem validate_fs_group_accept_iff_in_some_range_witness :
    validate_fs_group 100 ⟨[⟨1000, 2000⟩]⟩ =
      PolicyResponse.Reject "fsGroup 100 is not included in any range" :=
  ((validate_fs_group_accept_iff_in_some_range 100 ⟨[⟨1000, 2000⟩]⟩).2).resolve_left
    (by decide)

/-- C5: under `RunAsAny` every pod that has a spec is accepted, whatever the
state of its security context and fsGroup field. -/
theorem run_as_any_accepts
    (pod : Pod) (podSpec : PodSpec) (hspec : pod.spec = some podSpec) :
    do_validate pod ⟨Rule.RunAsAny⟩ = .ok .Accept := by
  obtain ⟨spec?, podOther⟩ := pod
  cases spec? with
  | none => cases hspec
  | some ps => rfl

/-- Witness for C5 at a pod with a spec and no security context at all. -/
theorem run_as_any_accepts_witness :
    do_validate ⟨some ⟨none, []⟩, []⟩ ⟨Rule.RunAsAny⟩ = .ok .Accept :=
  run_as_any_accepts ⟨some ⟨none, []⟩, []⟩ ⟨none, []⟩ rfl

/-- C6: under `MayRunAs`, every pod with a spec whose fsGroup field is
absent (security context absent, or present with the field unset) is
accepted, for every configured range list. -/
theorem may_run_as_absent_fs_group_accepts
    (pod : Pod) (podSpec : PodSpec) (ranges : Ranges)
    (hspec : pod.spec = some podSpec)
    (habsent : (podSpec.security_context.bind fun sc => sc.fs_group) = none) :
    do_validate pod ⟨Rule.MayRunAs ranges⟩ = .ok .Accept := by
  obtain ⟨spec?, podOther⟩ := pod
  cases spec? with
  | none => cases hspec
  | some ps =>
    obtain rfl := Option.some.inj hspec
    obtain ⟨sc?, specOther⟩ := ps
    cases sc? with
    | none => rfl
    | some sc =>
      obtain ⟨fs?, scOther⟩ := sc
      cases fs? with
      | some v => cases habsent
      | none => rfl

/-- Witness for C6 at a pod whose security context is present with fsGroup
unset, against the range list `[1000,2000]`. -/
theorem may_run_as_absent_fs_group_accepts_witness :
    do_validate ⟨some ⟨some ⟨none, []⟩, []⟩, []⟩
      ⟨Rule.MayRunAs ⟨[⟨1000, 2000⟩]⟩⟩ = .ok .Accept :=
  may_run_as_absent_fs_group_accepts
    ⟨some ⟨some ⟨none, []⟩, []⟩, []⟩ ⟨some ⟨none, []⟩, []⟩ ⟨[⟨1000, 2000⟩]⟩ rfl rfl

/-- C3 is refuted: mutation rebuilds the security context from its default
value, so a field of an already-present security context other than fsGroup
(modelled here as the entry `("runAsUser", "1000")`) is dropped by the
mutation instead of being kept unchanged. -/
theorem mutate_resets_existing_security_context_fields :
    do_validate ⟨some ⟨some ⟨none, [("runAsUser", "1000")]⟩, []⟩, []⟩
        ⟨Rule.MustRunAs ⟨[⟨5, 10⟩]⟩⟩ =
      .ok (.Mutate ⟨some ⟨some ⟨some 5, []⟩, []⟩, []⟩) ∧
    ([("runAsUser", "1000")] : List (String × String)) ≠ [] := by
  exact ⟨rfl, by decide⟩

/-- C3 (amended): whenever `do_validate` returns `Mutate`, the mutated pod
keeps every field of the input pod outside the spec and every field of the
spec outside the security context, and its security context is the default
security context with only fsGroup set; fields of an already-present input
security context other than fsGroup are reset to their defaults rather than
preserved. -/
theorem mutate_changes_only_security_context
    (pod : Pod) (settings : Settings) (mutated : Pod)
    (h : do_validate pod settings = .ok (.Mutate mutated)) :
    mutated.otherFields = pod.otherFields ∧
    ∃ podSpec mutatedSpec : PodSpec,
      pod.spec = some podSpec ∧ mutated.spec = some mutatedSpec ∧
      mutatedSpec.otherFields = podSpec.otherFields ∧
      ∃ g : Int, mutatedSpec.security_context =
        some { PodSecurityContext.default with fs_group := some g } := by
  obtain ⟨ranges, firstRange, rest, podSpec, hrule, hranges, hspec, habsent, rfl⟩ :=
    do_validate_mutate_shape pod settings mutated h
  exact ⟨rfl, podSpec, _, hspec, rfl, rfl, firstRange.min, rfl⟩

/-- Witness for the amended C3 at a pod with spec-level and pod-level
fields set and no security context. -/
theorem mutate_changes_only_security_context_witness :
    (⟨some ⟨some ⟨some 1000, []⟩, [("hostname", "h")]⟩, [("name", "p")]⟩ : Pod).otherFields =
      (⟨some ⟨none, [("hostname", "h")]⟩, [("name", "p")]⟩ : Pod).otherFields ∧
    ∃ podSpec mutatedSpec : PodSpec,
      (⟨some ⟨none, [("hostname", "h")]⟩, [("name", "p")]⟩ : Pod).spec = some podSpec ∧
      (⟨some ⟨some ⟨some 1000, []⟩, [("hostname", "h")]⟩, [("name", "p")]⟩ : Pod).spec =
        some mutatedSpec ∧
      mutatedSpec.otherFields = podSpec.otherFields ∧
      ∃ g : Int, mutatedSpec.security_context =
        some { PodSecurityContext.default with fs_group := some g } :=
  mutate_changes_only_security_context
    ⟨some ⟨none, [("hostname", "h")]⟩, [("name", "p")]⟩
    ⟨Rule.MustRunAs ⟨[⟨1000, 2000⟩]⟩⟩
    ⟨some ⟨some ⟨some 1000, []⟩, [("hostname", "h")]⟩, [("name", "p")]⟩ rfl

/-- C4: settings validation accepts `RunAsAny` unconditionally; for
`MustRunAs` and `MayRunAs` an empty range list fails with the message
naming the rule (emptiness is checked first, so an empty list never yields
the range error), a non-empty list containing a range with min > max fails
with "all ranges must be valid", and a non-empty list whose every range has
min ≤ max validates successfully. -/
theorem settings_validate_spec (ranges : Ranges) :
    Settings.validate ⟨Rule.RunAsAny⟩ = Except.ok () ∧
    (ranges.ranges = [] →
      Settings.validate ⟨Rule.MustRunAs ranges⟩ =
        Except.error "MustRunAs must contain at least one range" ∧
      Settings.validate ⟨Rule.MayRunAs ranges⟩ =
        Except.error "MayRunAs must contain at least one range") ∧
    (ranges.ranges ≠ [] → (∃ r ∈ ranges.ranges, r.min > r.max) →
      Settings.validate ⟨Rule.MustRunAs ranges⟩ =
        Except.error "all ranges must be valid" ∧
      Settings.validate ⟨Rule.MayRunAs ranges⟩ =
        Except.error "all ranges must be valid") ∧
    (ranges.ranges ≠ [] → (∀ r ∈ ranges.ranges, r.min ≤ r.max) →
      Settings.validate ⟨Rule.MustRunAs ranges⟩ = Except.ok () ∧
      Settings.validate ⟨Rule.MayRunAs ranges⟩ = Except.ok ()) := by
  refine ⟨rfl, fun hnil => ?_, fun hnil hbad => ?_, fun hnil hgood => ?_⟩
  · have he : ranges.ranges.isEmpty = true := (list_isEmpty_iff _).mpr hnil
    constructor
    · rw [settings_validate_must_run_as_eq, if_pos he]
    · rw [settings_validate_may_run_as_eq, if_pos he]
  · have he : ¬ ranges.ranges.isEmpty = true := fun hc => hnil ((list_isEmpty_iff _).mp hc)
    have hb : (ranges.ranges.all fun range => decide (range.min ≤ range.max)) = false := by
      obtain ⟨r, hr, hlt⟩ := hbad
      refine Bool.eq_false_iff.mpr fun hall => ?_
      have := List.all_eq_true.mp hall r hr
      rw [decide_eq_true_eq] at this
      exact absurd this (not_le.mpr hlt)
    constructor
    · rw [settings_validate_must_run_as_eq, if_neg he, if_pos (by simp [hb])]
    · rw [settings_validate_may_run_as_eq, if_neg he, if_pos (by simp [hb])]
  · have he : ¬ ranges.ranges.isEmpty = true := fun hc => hnil ((list_isEmpty_iff _).mp hc)
    have hb : (ranges.ranges.all fun range => decide (range.min ≤ range.max)) = true :=
      List.all_eq_true.mpr fun r hr => decide_eq_true (hgood r hr)
    constructor
    · rw [settings_validate_must_run_as_eq, if_neg he, if_neg (by simp [hb])]
    · rw [settings_validate_may_run_as_eq, if_neg he, if_neg (by simp [hb])]

/-- Witness for C4: the three concrete cases of the spec's test list for
`MustRunAs` (empty list, range `{1000,500}`, range `{1000,1000}`). -/
theorem settings_validate_spec_witness :
    Settings.validate ⟨Rule.MustRunAs ⟨[]⟩⟩ =
      Except.error "MustRunAs must contain at least one range" ∧
    Settings.validate ⟨Rule.MustRunAs ⟨[⟨1000, 500⟩]⟩⟩ =
      Except.error "all ranges must be valid" ∧
    Settings.validate ⟨Rule.MustRunAs ⟨[⟨1000, 1000⟩]⟩⟩ = Except.ok () :=
  ⟨((settings_validate_spec ⟨[]⟩).2.1 rfl).1,
    ((settings_validate_spec ⟨[⟨1000, 500⟩]⟩).2.2.1 (by decide)
      ⟨⟨1000, 500⟩, by decide, by decide⟩).1,
    ((settings_validate_spec ⟨[⟨1000, 1000⟩]⟩).2.2.2 (by decide) (by decide)).1⟩

/-- C7: `do_validate` returns a (returned, `anyhow`) error exactly when the
pod has no spec, for every settings value, and in that case the error is
"invalid pod spec" — a missing spec is never encoded as a policy outcome. -/
theorem do_validate_err_iff_missing_spec (pod : Pod) (settings : Settings) :
    ((do_validate pod settings).isErr = true ↔ pod.spec = none) ∧
    (pod.spec = none → do_validate pod settings = .err "invalid pod spec") := by
  obtain ⟨spec?, podOther⟩ := pod
  cases spec? with
  | none => exact ⟨iff_of_true rfl rfl, fun _ => rfl⟩
  | some podSpec =>
    refine ⟨iff_of_false ?_ (by simp), by simp⟩
    obtain ⟨rule⟩ := settings
    obtain ⟨sc?, specOther⟩ := podSpec
    cases rule with
    | RunAsAny => simp [do_validate, ValidateResult.isErr]
    | MayRunAs ranges =>
      cases sc? with
      | none => simp [do_validate, ValidateResult.isErr]
      | some sc =>
        obtain ⟨fs?, scOther⟩ := sc
        cases fs? with
        | none => simp [do_validate, ValidateResult.isErr]
        | some v => simp [do_validate, ValidateResult.isErr]
    | MustRunAs ranges =>
      obtain ⟨rlist⟩ := ranges
      cases rlist with
      | nil => simp [do_validate, ValidateResult.isErr]
      | cons f rest =>
        cases sc? with
        | none => simp [do_validate, ValidateResult.isErr]
        | some sc =>
          obtain ⟨fs?, scOther⟩ := sc
          cases fs? with
          | none => simp [do_validate, ValidateResult.isErr]
          | some v => simp [do_validate, ValidateResult.isErr]

/-- Witness for C7: a pod without a spec yields the "invalid pod spec"
error under `RunAsAny`. -/
theorem do_validate_err_iff_missing_spec_witness :
    do_validate ⟨none, []⟩ ⟨Rule.RunAsAny⟩ = .err "invalid pod spec" :=
  (do_validate_err_iff_missing_spec ⟨none, []⟩ ⟨Rule.RunAsAny⟩).2 rfl

/-- C8 as stated is refuted at a `MustRunAs` rule with an empty range list:
the code eagerly unwraps the first range, so with fsGroup present and no
range configured it panics instead of rejecting the out-of-range value. -/
theorem must_run_as_empty_ranges_panics :
    do_validate ⟨some ⟨some ⟨some 5, []⟩, []⟩, []⟩ ⟨Rule.MustRunAs ⟨[]⟩⟩ =
      ValidateResult.panicked ∧
    ValidateResult.panicked ≠
      .ok (.Reject "fsGroup 5 is not included in any range") ∧
    ValidateResult.panicked ≠ ValidateResult.ok .Accept :=
  ⟨rfl, by decide, by decide⟩

/-- C8 (amended): under `MustRunAs` with a non-empty range list, a pod
whose fsGroup field is present with value v is never mutated: the outcome
is Accept when v lies in some configured range and Reject (naming v)
otherwise. -/
theorem must_run_as_present_value_never_mutates
    (pod : Pod) (podSpec : PodSpec) (sc : PodSecurityContext) (v : Int)
    (ranges : Ranges)
    (hne : ranges.ranges ≠ [])
    (hspec : pod.spec = some podSpec)
    (hsc : podSpec.security_context = some sc)
    (hv : sc.fs_group = some v) :
    (∀ p : Pod, do_validate pod ⟨Rule.MustRunAs ranges⟩ ≠ .ok (.Mutate p)) ∧
    ((∃ r ∈ ranges.ranges, r.min ≤ v ∧ v ≤ r.max) →
      do_validate pod ⟨Rule.MustRunAs ranges⟩ = .ok .Accept) ∧
    ((¬ ∃ r ∈ ranges.ranges, r.min ≤ v ∧ v ≤ r.max) →
      do_validate pod ⟨Rule.MustRunAs ranges⟩ =
        .ok (.Reject ("fsGroup " ++ toString v ++ " is not included in any range"))) := by
  obtain ⟨spec?, podOther⟩ := pod
  cases spec? with
  | none => cases hspec
  | some ps =>
    obtain rfl := Option.some.inj hspec
    obtain ⟨sc?, specOther⟩ := ps
    cases sc? with
    | none => cases hsc
    | some sc' =>
      obtain rfl := Option.some.inj hsc
      obtain ⟨fs?, scOther⟩ := sc'
      cases fs? with
      | none => cases hv
      | some v' =>
        obtain rfl := Option.some.inj hv
        obtain ⟨rlist⟩ := ranges
        cases rlist with
        | nil => exact absurd rfl hne
        | cons f rest =>
          have hred :
              do_validate ⟨some ⟨some ⟨some v', scOther⟩, specOther⟩, podOther⟩
                  ⟨Rule.MustRunAs ⟨f :: rest⟩⟩ =
                .ok (validate_fs_group v' ⟨f :: rest⟩) := rfl
          refine ⟨fun p hc => ?_, fun hmem => ?_, fun hmem => ?_⟩
          · rw [hred] at hc
            exact absurd (ValidateResult.ok.inj hc)
              (validate_fs_group_ne_mutate v' ⟨f :: rest⟩ p)
          · rw [hred]
            exact congrArg ValidateResult.ok
              ((validate_fs_group_eq_accept_iff v' ⟨f :: rest⟩).mpr hmem)
          · rw [hred]
            exact congrArg ValidateResult.ok
              (validate_fs_group_eq_reject v' ⟨f :: rest⟩ hmem)

/-- Witness for the amended C8: value 100 against the single range
`[1000,2000]` is rejected, not mutated. -/
theorem must_run_as_present_value_never_mutates_witness :
    (∀ p : Pod,
      do_validate ⟨some ⟨some ⟨some 100, []⟩, []⟩, []⟩
        ⟨Rule.MustRunAs ⟨[⟨1000, 2000⟩]⟩⟩ ≠ .ok (.Mutate p)) ∧
    ((∃ r ∈ (Ranges.mk [⟨1000, 2000⟩]).ranges, r.min ≤ (100 : Int) ∧ (100 : Int) ≤ r.max) →
      do_validate ⟨some ⟨some ⟨some 100, []⟩, []⟩, []⟩
        ⟨Rule.MustRunAs ⟨[⟨1000, 2000⟩]⟩⟩ = .ok .Accept) ∧
    ((¬ ∃ r ∈ (Ranges.mk [⟨1000, 2000⟩]).ranges, r.min ≤ (100 : Int) ∧ (100 : Int) ≤ r.max) →
      do_validate ⟨some ⟨some ⟨some 100, []⟩, []⟩, []⟩
        ⟨Rule.MustRunAs ⟨[⟨1000, 2000⟩]⟩⟩ =
        .ok (.Reject ("fsGroup " ++ toString (100 : Int) ++ " is not included in any range"))) :=
  must_run_as_present_value_never_mutates
    ⟨some ⟨some ⟨some 100, []⟩, []⟩, []⟩ ⟨some ⟨some 100, []⟩, []⟩ ⟨some 100, []⟩ 100
    ⟨[⟨1000, 2000⟩]⟩ (by decide) rfl rfl rfl

/-- C9: for a `MustRunAs` settings value that passes settings validation,
re-running `do_validate` on the pod produced by a `Mutate` outcome yields
Accept: the injected default (the first range's min) satisfies the
range-membership test. -/
theorem mutated_pod_revalidates_to_accept
    (pod mutated : Pod) (ranges : Ranges)
    (hvalid : Settings.validate ⟨Rule.MustRunAs ranges⟩ = Except.ok ())
    (h : do_validate pod ⟨Rule.MustRunAs ranges⟩ = .ok (.Mutate mutated)) :
    do_validate mutated ⟨Rule.MustRunAs ranges⟩ = .ok .Accept := by
  obtain ⟨-, hall⟩ := settings_validate_must_run_as_ok ranges hvalid
  obtain ⟨ranges', firstRange, rest, podSpec, hrule, hranges, hspec, habsent, rfl⟩ :=
    do_validate_mutate_shape pod ⟨Rule.MustRunAs ranges⟩ mutated h
  obtain rfl : ranges' = ranges := (Rule.MustRunAs.inj hrule).symm
  obtain ⟨rlist⟩ := ranges'
  obtain rfl : rlist = firstRange :: rest := hranges
  obtain ⟨spec?, podOther⟩ := pod
  have hmem : firstRange ∈ (Ranges.mk (firstRange :: rest)).ranges :=
    List.mem_cons_self firstRange rest
  have haccept : validate_fs_group firstRange.min ⟨firstRange :: rest⟩ =
      PolicyResponse.Accept :=
    (validate_fs_group_eq_accept_iff firstRange.min ⟨firstRange :: rest⟩).mpr
      ⟨firstRange, hmem, le_refl firstRange.min, hall firstRange hmem⟩
  show ValidateResult.ok (validate_fs_group firstRange.min ⟨firstRange :: rest⟩) =
    .ok .Accept
  rw [haccept]

/-- Witness for C9: the mutated pod produced for `MustRunAs [{1000,2000}]`
revalidates to Accept. -/
theorem mutated_pod_revalidates_to_accept_witness :
    do_validate ⟨some ⟨some ⟨some 1000, []⟩, []⟩, []⟩
      ⟨Rule.MustRunAs ⟨[⟨1000, 2000⟩]⟩⟩ = .ok .Accept :=
  mutated_pod_revalidates_to_accept ⟨some ⟨none, []⟩, []⟩
    ⟨some ⟨some ⟨some 1000, []⟩, []⟩, []⟩ ⟨[⟨1000, 2000⟩]⟩ rfl rfl

/-- C10: settings validation is a pure function of the settings value:
validating the same value twice yields equal results, and in particular
re-validating an already-valid value succeeds again. -/
theorem settings_validate_idempotent (s : Settings) :
    (Settings.validate s = Except.ok () → Settings.validate s = Except.ok ()) ∧
    Settings.validate s = Settings.validate s :=
  ⟨fun h => h, rfl⟩

/-- Witness for C10 at the `RunAsAny` settings value. -/
theorem settings_validate_idempotent_witness :
    Settings.validate ⟨Rule.RunAsAny⟩ = Except.ok () :=
  (settings_validate_idempotent ⟨Rule.RunAsAny⟩).1 rfl

end AllowedFsGroups
